import Mathlib

/-!
A shallow embedding of the Express response class
(`src/lib/response-class.js`) and proofs about its specified behaviour.

JavaScript strings are modelled as Lean `String`, byte buffers as
`List Nat`, header maps as association lists keyed by the lowercased
header name (Node header access is case-insensitive), and thrown
exceptions as `Except`.  External collaborators (the `mime-types`
canonicalizer, the ETag generator, the `statuses` message table, the
cookie serializer and signer, the request negotiation helper) are
parameters of the corresponding definitions, as the spec treats them as
out-of-scope collaborators consumed through narrow interfaces.
-/

set_option autoImplicit false

namespace Express

/-- Error kinds thrown synchronously by the response methods. -/
inductive ErrKind where
  | typeKind
  | rangeKind
  | generic
deriving DecidableEq, Repr

/-- A header value: a single string or an ordered list of strings
(Node allows array-valued headers, used here for `Set-Cookie`). -/
inductive HVal where
  | one (s : String)
  | many (l : List String)
deriving DecidableEq, Repr

/-- A body chunk as it flows through `send`: a JavaScript string or a
byte buffer (`Buffer`). -/
inductive SendChunk where
  | cstr (s : String)
  | cbuf (b : List Nat)
deriving DecidableEq, Repr

/-- The response state: status code, headers (keys stored lowercased,
matching case-insensitive Node header access), and the final
transmission recorded by `end` as (optional chunk, optional encoding).
`transmitted = none` means `end` has not run. -/
structure Resp where
  statusCode : Int := 200
  headers : List (String × HVal) := []
  transmitted : Option (Option SendChunk × Option String) := none
deriving DecidableEq, Repr

/-- Lowercase one ASCII letter (the model of JavaScript
`toLowerCase()` restricted to the ASCII header names this code uses). -/
def lcChar (c : Char) : Char :=
  if 65 ≤ c.toNat ∧ c.toNat ≤ 90 then Char.ofNat (c.toNat + 32) else c

/-- Lowercase a string character by character. -/
def lcStr (s : String) : String :=
  ⟨s.data.map lcChar⟩

/-- Case-insensitive lookup in a header list. -/
def findHdr (hs : List (String × HVal)) (f : String) : Option HVal :=
  (hs.find? (fun p => p.1 == (lcStr f))).map (fun p => p.2)

/-- `this.getHeader(field)` — case-insensitive lookup. -/
def getH (r : Resp) (f : String) : Option HVal :=
  findHdr r.headers f

/-- Insert or replace a header entry (key stored lowercased). -/
def putList (hs : List (String × HVal)) (k : String) (v : HVal) :
    List (String × HVal) :=
  match hs with
  | [] => [(k, v)]
  | (k2, w) :: t => if k2 == k then (k, v) :: t else (k2, w) :: putList t k v

/-- `this.setHeader(field, value)`. -/
def putH (r : Resp) (f : String) (v : HVal) : Resp :=
  { r with headers := putList r.headers (lcStr f) v }

/-- `this.removeHeader(field)`. -/
def removeH (r : Resp) (f : String) : Resp :=
  { r with headers := r.headers.filter (fun p => p.1 != (lcStr f)) }

/-- The `set`/`header` method applied to a single string value (every
internal call site in the modelled code passes a single string): stores
the value, canonicalizing `Content-Type` through the external
`mime.contentType` collaborator `mimeCT`.  The array-valued branch of
`header` (which rejects array `Content-Type` values) is exercised by no
modelled call site and is omitted here. -/
def setStr (mimeCT : String → String) (r : Resp) (f : String) (s : String) :
    Resp :=
  putH r f (.one (if (lcStr f) == "content-type" then mimeCT s else s))

/-- `this.append(field, val)` for a single string value: no previous
value behaves as `set`; otherwise the previous value(s) and the new one
are merged into an ordered list.  The only modelled call site is
`Set-Cookie`, which is not `Content-Type`, so the stored value is the
string itself. -/
def appendH (mimeCT : String → String) (r : Resp) (f : String) (s : String) :
    Resp :=
  match getH r f with
  | none => setStr mimeCT r f s
  | some (.one p) => putH r f (.many [p, s])
  | some (.many l) => putH r f (.many (l ++ [s]))

/-- A JavaScript value as passed to `status(code)`: an integer number,
some other number (a non-integer float, `NaN`, `Infinity`), or a
non-number value.  `Number.isInteger` is true exactly on `int`. -/
inductive JsVal where
  | int (n : Int)
  | nonIntNum
  | nan
  | inf
  | negInf
  | str (s : String)
  | bool (b : Bool)
  | obj
  | arr
  | undef
  | null
deriving DecidableEq, Repr

/-- `status(code)`: throws `TypeError` unless `Number.isInteger(code)`,
throws `RangeError` unless `100 <= code <= 999`, else stores the code
and returns the context. -/
def status (r : Resp) (code : JsVal) : Except ErrKind Resp :=
  match code with
  | .int n =>
      if n < 100 ∨ n > 999 then .error .rangeKind
      else .ok { r with statusCode := n }
  | _ => .error .typeKind

/-- Whether a Content-Type string already carries a charset parameter. -/
def hasCharsetParam (ct : String) : Bool :=
  decide (1 < (ct.splitOn "charset=").length)

/-- Modelled from the spec: `setCharset` from the repository's
`./utils` module, whose source is not included — "if a Content-Type is
present without a charset parameter, append `charset=utf-8`". -/
def setCharset (ct : String) : String :=
  if hasCharsetParam ct then ct else ct ++ "; charset=utf-8"

/-- The `type`/`contentType` method: a token without a slash is
resolved through the external mime canonicalizer (the source's
fall-back string for unresolvable tokens is folded into the total
collaborator function `mimeCT`); a full type is passed through.  The
result is stored via `set`, which canonicalizes `Content-Type` again. -/
def typeSet (mimeCT : String → String) (r : Resp) (t : String) : Resp :=
  setStr mimeCT r "Content-Type"
    (if t.data.contains '/' then t else mimeCT t)

/-- UTF-8 encoding of one Unicode scalar value, byte by byte (the model
of Node `Buffer.from(s, 'utf8')` for one character). -/
def utf8EncodeChar (c : Char) : List Nat :=
  let n := c.toNat
  if n < 128 then [n]
  else if n < 2048 then [192 + n / 64, 128 + n % 64]
  else if n < 65536 then [224 + n / 4096, 128 + (n / 64) % 64, 128 + n % 64]
  else [240 + n / 262144, 128 + (n / 4096) % 64, 128 + (n / 64) % 64,
        128 + n % 64]

/-- Node `Buffer.from(s, 'utf8')`: the UTF-8 bytes of a string. -/
def utf8Bytes (s : String) : List Nat :=
  s.data.foldl (fun acc c => acc ++ utf8EncodeChar c) []

/-- Node `Buffer.byteLength(s, 'utf8')`. -/
def utf8ByteLen (s : String) : Nat :=
  (utf8Bytes s).length

/-- JavaScript `s.length`: the number of UTF-16 code units (characters
above the basic multilingual plane count twice). -/
def utf16Len (s : String) : Nat :=
  s.data.foldl (fun acc c => acc + (if 65536 ≤ c.toNat then 2 else 1)) 0

/-- `!this.get('ETag')`: the ETag header is absent or falsy (the code
tests truthiness, so an empty-string header value also counts as
absent; a stored array is always truthy in JavaScript). -/
def etagHeaderFalsy (r : Resp) : Bool :=
  match getH r "ETag" with
  | none => true
  | some (.one s) => s == ""
  | some (.many _) => false

/-- `generateETag`: an ETag will be generated — the app configures an
ETag-generator function and no (truthy) ETag header is already set. -/
def genETag (r : Resp) (etagFn : Option (SendChunk → Option String → String)) :
    Bool :=
  etagHeaderFalsy r && etagFn.isSome

/-- The body argument of `send` after the `typeof` switch has run:
strings and buffers flow through the serializer; `null` becomes the
empty string; `undefined` stays undefined.  Booleans, numbers and
non-buffer objects delegate to `json`, which serializes them and
re-enters `send` with a string, so they never reach this stage. -/
inductive SendBody where
  | bstr (s : String)
  | bbuf (b : List Nat)
  | bnull
  | bundef
deriving DecidableEq, Repr

/-- The normalisation switch of `send`: default the Content-Type for
strings (`html`) and buffers (`bin`) when none is set, turn `null` into
the empty string, leave `undefined` alone. -/
def sendNormalize (mimeCT : String → String) (body : SendBody) (r : Resp) :
    Resp × Option SendChunk :=
  match body with
  | .bstr s =>
      (if (getH r "Content-Type").isNone then typeSet mimeCT r "html" else r,
       some (.cstr s))
  | .bnull => (r, some (.cstr ""))
  | .bbuf b =>
      (if (getH r "Content-Type").isNone then typeSet mimeCT r "bin" else r,
       some (.cbuf b))
  | .bundef => (r, none)

/-- The string-encoding step of `send`: for a string chunk, the
encoding becomes `utf8` and a present (single-string) Content-Type is
annotated with `charset=utf-8`. -/
def sendCharset (mimeCT : String → String) (r : Resp)
    (ch : Option SendChunk) : Resp × Option String :=
  match ch with
  | some (.cstr _) =>
      (match getH r "Content-Type" with
       | some (.one t) => setStr mimeCT r "Content-Type" (setCharset t)
       | _ => r,
       some "utf8")
  | _ => (r, none)

/-- The ETag step of `send`: when an ETag is to be generated and a
length was computed, call the generator on the (possibly buffered)
chunk and set the header only for a non-empty (truthy) result. -/
def sendEtag (etagFn : Option (SendChunk → Option String → String))
    (gen : Bool) (r : Resp) (ch : SendChunk) (enc : Option String) : Resp :=
  match etagFn, gen with
  | some f, true =>
      let tag := f ch enc
      if tag == "" then r else setStr (fun s => s) r "ETag" tag
  | _, _ => r

/-- The Content-Length / ETag block of `send` (lines 97-118): buffers
use their byte length; a string is measured directly when no ETag will
be generated and its (UTF-16) length is below 1000, and is otherwise
materialized into a UTF-8 buffer (discarding the encoding variable);
`Content-Length` is set whenever the chunk is defined; the ETag
generator runs when enabled and a length was computed. -/
def sendLength (mimeCT : String → String)
    (etagFn : Option (SendChunk → Option String → String)) (r : Resp)
    (ch : Option SendChunk) (enc : Option String) :
    Resp × Option SendChunk × Option String :=
  let gen := genETag r etagFn
  match ch with
  | none => (r, none, enc)
  | some (.cbuf b) =>
      let r2 := setStr mimeCT r "Content-Length" (toString b.length)
      (sendEtag etagFn gen r2 (.cbuf b) enc, some (.cbuf b), enc)
  | some (.cstr s) =>
      if !gen && utf16Len s < 1000 then
        let r2 := setStr mimeCT r "Content-Length" (toString (utf8ByteLen s))
        (sendEtag etagFn gen r2 (.cstr s) enc, some (.cstr s), enc)
      else
        let b := utf8Bytes s
        let r2 := setStr mimeCT r "Content-Length" (toString b.length)
        (sendEtag etagFn gen r2 (.cbuf b) none, some (.cbuf b), none)

/-- `send` up to and including the Content-Length / ETag block:
returns the response state, the current chunk and the encoding just
before the freshness / 204 / 304 / 205 handling. -/
def sendStage1 (mimeCT : String → String)
    (etagFn : Option (SendChunk → Option String → String)) (body : SendBody)
    (r : Resp) : Resp × Option SendChunk × Option String :=
  let (r1, ch) := sendNormalize mimeCT body r
  let (r2, enc) := sendCharset mimeCT r1 ch
  sendLength mimeCT etagFn r2 ch enc

/-- The header strip of the 204/304 branch of `send`. -/
def strip204 (r : Resp) : Resp :=
  removeH (removeH (removeH r "Content-Type") "Content-Length")
    "Transfer-Encoding"

/-- The tail of `send` (lines 120-140): freshness forces status 304
(`this.status(304)` — validation trivially passes for the literal 304);
status 204/304 strips Content-Type, Content-Length and
Transfer-Encoding and empties the chunk; status 205 forces
Content-Length "0", strips Transfer-Encoding and empties the chunk;
HEAD requests end without a body, otherwise `end(chunk, enc)` runs. -/
def sendFinish (mimeCT : String → String) (fresh : Bool) (method : String)
    (r : Resp) (ch : Option SendChunk) (enc : Option String) : Resp :=
  let r1 := if fresh then { r with statusCode := 304 } else r
  let p2 :=
    if r1.statusCode = 204 ∨ r1.statusCode = 304 then
      (strip204 r1, some (SendChunk.cstr ""))
    else (r1, ch)
  let p3 :=
    if p2.1.statusCode = 205 then
      (removeH (setStr mimeCT p2.1 "Content-Length" "0") "Transfer-Encoding",
       some (SendChunk.cstr ""))
    else p2
  if method == "HEAD" then { p3.1 with transmitted := some (none, none) }
  else { p3.1 with transmitted := some (p3.2, enc) }

/-- The full `send` method over the modelled request facts (freshness
and method) and app configuration (mime canonicalizer, ETag
generator). -/
def send (mimeCT : String → String)
    (etagFn : Option (SendChunk → Option String → String)) (fresh : Bool)
    (method : String) (body : SendBody) (r : Resp) : Resp :=
  let s1 := sendStage1 mimeCT etagFn body r
  sendFinish mimeCT fresh method s1.1 s1.2.1 s1.2.2

/-- The transmitted body is empty: `end` ran with no chunk, an empty
string or an empty buffer. -/
def txEmpty (r : Resp) : Bool :=
  match r.transmitted with
  | some (none, _) => true
  | some (some (.cstr s), _) => s == ""
  | some (some (.cbuf b), _) => b.isEmpty
  | none => false

/-!  JSONP (`jsonp`, lines 157-184). -/

/-- A query-string value for the callback parameter: a single string or
an array of strings (repeated parameter). -/
inductive QVal where
  | qstr (s : String)
  | qarr (l : List String)
deriving DecidableEq, Repr

/-- `let cb = req.query[name]; if (Array.isArray(cb)) cb = cb[0]`:
the effective callback value, `none` when absent or when an empty array
was supplied. -/
def firstCb (q : Option QVal) : Option String :=
  match q with
  | none => none
  | some (.qstr s) => some s
  | some (.qarr l) => l.head?

/-- A character the callback-name filter keeps:
`[A-Za-z0-9_$.\x5b\x5d]` (the regex strips the complement). -/
def cbKeep (c : Char) : Bool :=
  (decide ('a' ≤ c) && decide (c ≤ 'z')) ||
  (decide ('A' ≤ c) && decide (c ≤ 'Z')) ||
  (decide ('0' ≤ c) && decide (c ≤ '9')) ||
  c == '_' || c == '$' || c == '.' || c == '[' || c == ']'

/-- `cb.replace(/[^\x5b\x5d\w$.]/g, '')`. -/
def stripCb (s : String) : String :=
  ⟨s.data.filter cbKeep⟩

/-- A single-quote character as a string (U+0027). -/
def sq : String :=
  String.singleton (Char.ofNat 39)

/-- `body.replace(/ /g,'\\u2028').replace(/ /g,'\\u2029')`:
escape the two line separators in the serialized body. -/
def escapeLineSeps (s : String) : String :=
  s.data.foldl
    (fun acc c =>
      if c == Char.ofNat 8232 then acc ++ "\\u2028"
      else if c == Char.ofNat 8233 then acc ++ "\\u2029"
      else acc ++ String.singleton c)
    ""

/-- The serialized body as it appears inside the JSONP wrapper: an
undefined serialization becomes the empty string, a string gets its
line separators escaped. -/
def jsonpBody (body : Option String) : String :=
  match body with
  | none => ""
  | some b => escapeLineSeps b

/-- The JSONP wrapper text
`/**/ typeof <cb>===(squote)function(squote)&&<cb>(<body>);`. -/
def jsonpWrap (cb : String) (b : String) : String :=
  "/**/ typeof " ++ cb ++ "===" ++ sq ++ "function" ++ sq ++ "&&" ++ cb ++
    "(" ++ b ++ ");"

/-- `jsonp` up to its delegation to `send`: takes the serialized body
(`stringify` may yield `undefined`, hence `Option String`) and the raw
query value of the callback parameter, and returns the response state
and the body value handed to `send`. -/
def jsonpPre (mimeCT : String → String) (body : Option String)
    (q : Option QVal) (r : Resp) : Resp × Option String :=
  let r1 :=
    if (getH r "Content-Type").isNone then
      setStr mimeCT (setStr mimeCT r "X-Content-Type-Options" "nosniff")
        "Content-Type" "application/json"
    else r
  match firstCb q with
  | some s =>
      if s == "" then (r1, body)
      else
        let r2 :=
          setStr mimeCT
            (setStr mimeCT r1 "X-Content-Type-Options" "nosniff")
            "Content-Type" "text/javascript"
        (r2, some (jsonpWrap (stripCb s) (jsonpBody body)))
  | none => (r1, body)

/-- The full `jsonp` method: the pre-send step followed by `send`
(an undefined body reaches `send` as `undefined`). -/
def jsonp (mimeCT : String → String)
    (etagFn : Option (SendChunk → Option String → String)) (fresh : Bool)
    (method : String) (body : Option String) (q : Option QVal) (r : Resp) :
    Resp :=
  let p := jsonpPre mimeCT body q r
  send mimeCT etagFn fresh method
    (match p.2 with
     | some s => .bstr s
     | none => .bundef) p.1

/-!  `sendStatus` (lines 186-191). -/

/-- `statuses.message[statusCode] || String(statusCode)`: the body of
`sendStatus`, over the external `statuses` message table.  Only the
integer case is observable: for every other argument `status` throws
before the body is used. -/
def statusBody (statusMessage : Int → Option String) (code : JsVal) :
    String :=
  match code with
  | .int c => (statusMessage c).getD (toString c)
  | _ => ""

/-- `sendStatus(statusCode)`: compute the body from the external
message table, validate and store the status, set the `txt`
Content-Type, and delegate to `send`. -/
def sendStatus (mimeCT : String → String)
    (etagFn : Option (SendChunk → Option String → String))
    (statusMessage : Int → Option String) (fresh : Bool) (method : String)
    (code : JsVal) (r : Resp) : Except ErrKind Resp :=
  let body := statusBody statusMessage code
  (status r code).map
    (fun r1 => send mimeCT etagFn fresh method (.bstr body)
      (typeSet mimeCT r1 "txt"))

/-!  Vary and content negotiation (`vary`, `format`, lines 267-288,
389-390).  The `vary` module is an external collaborator; it is
modelled from the spec: "adds `Accept` to the `Vary` header". -/

/-- Parse a Vary header string into its comma-separated fields. -/
def parseVary (s : String) : List String :=
  (s.splitOn ",").map (fun t => t.trim)

/-- The current Vary fields of a response. -/
def varyFields (r : Resp) : List String :=
  match getH r "Vary" with
  | none => []
  | some (.one s) => if s == "" then [] else parseVary s
  | some (.many l) => l

/-- Modelled from the spec: the external `vary` collaborator — add a
field to the `Vary` header unless (case-insensitively) already present.
The model stores the field list as an array-valued header. -/
def varyAdd (r : Resp) (f : String) : Resp :=
  let cur := varyFields r
  if (cur.map (fun t => (lcStr t))).contains (lcStr f) then r
  else putH r "Vary" (.many (cur ++ [f]))

/-- Whether a field is (case-insensitively) among the Vary fields. -/
def varyHas (r : Resp) (f : String) : Bool :=
  ((varyFields r).map (fun t => (lcStr t))).contains (lcStr f)

/-- The observable outcome of `format`: a matched type handler ran, the
`default` handler ran, or an error was handed to `next` (status and the
normalized offered types). -/
inductive FmtOutcome where
  | handler (key : String)
  | defaultHandler
  | nextError (stat : Nat) (types : List String)
deriving DecidableEq, Repr

/-- `const key = keys.length ? req.accepts(keys) : false`, then the
truthiness test `if (key)`: the effective matched key.  `accepts` is
the request's negotiation collaborator. -/
def formatKey (accepts : List String → Option String) (keys : List String) :
    Option String :=
  if keys.isEmpty then none
  else
    match accepts keys with
    | some s => if s == "" then none else some s
    | none => none

/-- `format(obj)` over the ordered key list of the negotiation table
(`Object.keys(obj)`).  `normType` models `normalizeType`/
`normalizeTypes` from the repository's `./utils` module (not included
in the sources); per the spec they map a type key to its canonical
value.  Always varies on Accept; a matched key sets the canonical
Content-Type and runs that handler; otherwise the `default` handler
runs when present; otherwise a 406 error carrying the normalized
offered types goes to `next`. -/
def format (mimeCT : String → String) (normType : String → String)
    (accepts : List String → Option String) (allKeys : List String)
    (r : Resp) : Resp × FmtOutcome :=
  let keys := allKeys.filter (fun v => v != "default")
  let r1 := varyAdd r "Accept"
  match formatKey accepts keys with
  | some k =>
      (setStr mimeCT r1 "Content-Type" (normType k), .handler k)
  | none =>
      if allKeys.contains "default" then (r1, .defaultHandler)
      else (r1, .nextError 406 (keys.map normType))

/-!  Cookies (`cookie`, `clearCookie`, lines 330-358). -/

/-- The recognized cookie attributes (other attributes pass through the
external serializer unchanged and are not modelled). -/
structure CookieOpts where
  path : Option String := none
  expires : Option Int := none
  maxAge : Option Int := none
  signed : Bool := false
deriving DecidableEq, Repr

/-- A cookie value argument: a string, or an object (carried here
already JSON-serialized, since `JSON.stringify` is external). -/
inductive CkVal where
  | str (s : String)
  | obj (json : String)
deriving DecidableEq, Repr

/-- `typeof value === 'object' ? 'j:' + JSON.stringify(value) :
String(value)`. -/
def ckValString (v : CkVal) : String :=
  match v with
  | .str s => s
  | .obj j => "j:" ++ j

/-- The arguments handed to the external `cookie.serialize`
collaborator: name, final value string, final attribute set. -/
structure CkEntry where
  name : String
  value : String
  opts : CookieOpts
deriving DecidableEq, Repr

/-- `cookie(name, value, options)`: throws when signing is requested
without a secret; signs with an `s:` prefix; converts a supplied
`maxAge` (milliseconds) into an absolute `expires` and a whole-second
`maxAge`; defaults the path to `/`; appends the serialized entry to
`Set-Cookie`.  Returns the new state and the entry handed to the
serializer. -/
def cookie (sign : String → String → String) (serializeCk : CkEntry → String)
    (now : Int) (secret : Option String) (name : String) (value : CkVal)
    (options : CookieOpts) (r : Resp) : Except ErrKind (Resp × CkEntry) :=
  let opts := options
  if opts.signed && secret.isNone then .error .generic
  else
    let val := ckValString value
    let val := if opts.signed then "s:" ++ sign val (secret.getD "") else val
    let opts :=
      match opts.maxAge with
      | some ma =>
          { opts with expires := some (now + ma),
                      maxAge := some (Int.fdiv ma 1000) }
      | none => opts
    let opts :=
      if opts.path.isNone then { opts with path := some "/" } else opts
    let entry : CkEntry := ⟨name, val, opts⟩
    .ok (appendH (fun s => s) r "Set-Cookie" (serializeCk entry), entry)

/-- `clearCookie(name, options)`: spread the caller options over a `/`
path default, override `expires` with `new Date(1)` (one millisecond
after the epoch — a timestamp in the past), delete `maxAge`, and issue
the cookie with the empty-string value. -/
def clearCookie (sign : String → String → String)
    (serializeCk : CkEntry → String) (now : Int) (secret : Option String)
    (name : String) (options : CookieOpts) (r : Resp) :
    Except ErrKind (Resp × CkEntry) :=
  let opts : CookieOpts :=
    { path := some (options.path.getD "/"),
      expires := some 1,
      maxAge := none,
      signed := options.signed }
  cookie sign serializeCk now secret name (.str "") opts r

/-!  The file-delivery session state machine (`sendfile`,
lines 417-480). -/

/-- The state of one delivery session: the `done` guard, the
`streaming` flag (`none` = never assigned), and the number of times the
terminal callback has been invoked (the four terminal handlers differ
only in the payload they pass; the count is what the at-most-once claim
is about). -/
structure SfState where
  done : Bool := false
  streaming : Option Bool := none
  cbCount : Nat := 0
deriving DecidableEq, Repr

/-- The common shape of `onaborted`/`ondirectory`/`onerror`/`onend`:
`if (done) return; done = true; callback(...)`. -/
def sfFire (s : SfState) : SfState :=
  if s.done then s else { s with done := true, cbCount := s.cbCount + 1 }

/-- The events a session can observe, in any order and multiplicity:
the five streamer events, the connection-finish signal (`none` = no
error, `some true` = ECONNRESET, `some false` = another error), and the
deferred `setImmediate` check that an error-free finish schedules. -/
inductive SfEvent where
  | evDirectory
  | evEnd
  | evError
  | evFile
  | evStream
  | evFinish (err : Option Bool)
  | evDeferred
deriving DecidableEq, Repr

/-- One step of the session state machine. -/
def sfStep (s : SfState) (e : SfEvent) : SfState :=
  match e with
  | .evDirectory => sfFire s
  | .evEnd => sfFire s
  | .evError => sfFire s
  | .evFile => { s with streaming := some false }
  | .evStream => { s with streaming := some true }
  | .evFinish (some _) => sfFire s
  | .evFinish none => s
  | .evDeferred =>
      if s.streaming != some false && !s.done then sfFire s
      else if !s.done then { s with done := true, cbCount := s.cbCount + 1 }
      else s

/-- Run a session from the initial state over a list of events. -/
def sfRun (es : List SfEvent) : SfState :=
  es.foldl sfStep {}

/-!  The default `sendFile` terminal policy (lines 217-221, the arrow
function when no explicit callback was given). -/

/-- The error object handed to the terminal callback: its `code` and
`syscall` properties (absent properties are `none`). -/
structure SfErrInfo where
  code : Option String := none
  syscall : Option String := none
deriving DecidableEq, Repr

/-- What the default policy does with the chain: call `next()` with no
argument, call `next(err)`, or call nothing. -/
inductive NextAction where
  | nextNoArg
  | nextErr (e : SfErrInfo)
  | noCall
deriving DecidableEq, Repr

/-- The default terminal callback of `sendFile` when the caller gave no
explicit callback: EISDIR hands control to `next()`; an error that is
neither ECONNABORTED nor a `write`-syscall error goes to `next(err)`;
everything else (success, aborted connections, write errors) is
suppressed. -/
def sendFileDefaultDone (err : Option SfErrInfo) : NextAction :=
  match err with
  | none => .noCall
  | some e =>
      if e.code == some "EISDIR" then .nextNoArg
      else if e.code != some "ECONNABORTED" && e.syscall != some "write" then
        .nextErr e
      else .noCall

/-!  Helper lemmas about the header map. -/

theorem find?_putList_same (hs : List (String × HVal)) (k : String)
    (v : HVal) :
    (putList hs k v).find? (fun p => p.1 == k) = some (k, v) := by
  induction hs with
  | nil => simp [putList]
  | cons h t ih =>
      obtain ⟨k2, w⟩ := h
      by_cases hk : k2 = k
      · simp [putList, hk]
      · simp [putList, hk, ih]

theorem find?_putList_other (hs : List (String × HVal)) (k g : String)
    (v : HVal) (h : g ≠ k) :
    (putList hs k v).find? (fun p => p.1 == g) =
      hs.find? (fun p => p.1 == g) := by
  induction hs with
  | nil => simp [putList, Ne.symm h]
  | cons hd t ih =>
      obtain ⟨k2, w⟩ := hd
      by_cases hk : k2 = k
      · subst hk
        simp [putList, Ne.symm h, h]
      · by_cases hg : k2 = g
        · subst hg
          simp [putList, hk, h]
        · simp [putList, hk, hg, ih]

theorem find?_filterKey_same (hs : List (String × HVal)) (k : String) :
    (hs.filter (fun p => p.1 != k)).find? (fun p => p.1 == k) = none := by
  induction hs with
  | nil => simp
  | cons hd t ih =>
      obtain ⟨k2, w⟩ := hd
      by_cases hk : k2 = k
      · simp [hk, ih]
      · simp [hk, ih]

theorem find?_filterKey_other (hs : List (String × HVal)) (k g : String)
    (h : g ≠ k) :
    (hs.filter (fun p => p.1 != k)).find? (fun p => p.1 == g) =
      hs.find? (fun p => p.1 == g) := by
  induction hs with
  | nil => simp
  | cons hd t ih =>
      obtain ⟨k2, w⟩ := hd
      by_cases hk : k2 = k
      · subst hk
        simp [Ne.symm h, ih]
      · by_cases hg : k2 = g
        · subst hg
          simp [hk, h]
        · simp [hk, hg, ih]

theorem getH_putH_same (r : Resp) (f g : String) (v : HVal)
    (h : (lcStr g) = (lcStr f)) : getH (putH r f v) g = some v := by
  simp [getH, findHdr, putH, h, find?_putList_same]

theorem getH_putH_other (r : Resp) (f g : String) (v : HVal)
    (h : (lcStr g) ≠ (lcStr f)) : getH (putH r f v) g = getH r g := by
  simp [getH, findHdr, putH, find?_putList_other _ _ _ _ h]

theorem getH_removeH_same (r : Resp) (f g : String)
    (h : (lcStr g) = (lcStr f)) : getH (removeH r f) g = none := by
  simp [getH, findHdr, removeH, h, find?_filterKey_same]

theorem getH_removeH_other (r : Resp) (f g : String)
    (h : (lcStr g) ≠ (lcStr f)) : getH (removeH r f) g = getH r g := by
  simp [getH, findHdr, removeH, find?_filterKey_other _ _ _ h]

theorem getH_setStr_other (mimeCT : String → String) (r : Resp)
    (f g : String) (s : String) (h : (lcStr g) ≠ (lcStr f)) :
    getH (setStr mimeCT r f s) g = getH r g :=
  getH_putH_other _ _ _ _ h

@[simp] theorem statusCode_putH (r : Resp) (f : String) (v : HVal) :
    (putH r f v).statusCode = r.statusCode := rfl

@[simp] theorem statusCode_removeH (r : Resp) (f : String) :
    (removeH r f).statusCode = r.statusCode := rfl

@[simp] theorem statusCode_setStr (mimeCT : String → String) (r : Resp)
    (f s : String) : (setStr mimeCT r f s).statusCode = r.statusCode := rfl

@[simp] theorem getH_mkStatus (r : Resp) (n : Int) (f : String) :
    getH { r with statusCode := n } f = getH r f := rfl

theorem statusCode_sendEtag (etagFn : Option (SendChunk → Option String → String))
    (gen : Bool) (r : Resp) (ch : SendChunk) (enc : Option String) :
    (sendEtag etagFn gen r ch enc).statusCode = r.statusCode := by
  unfold sendEtag
  rcases etagFn with _ | f
  · rfl
  · cases gen
    · rfl
    · simp only []
      split <;> simp

theorem statusCode_sendStage1 (mimeCT : String → String)
    (etagFn : Option (SendChunk → Option String → String)) (body : SendBody)
    (r : Resp) : (sendStage1 mimeCT etagFn body r).1.statusCode =
      r.statusCode := by
  unfold sendStage1 sendNormalize sendCharset sendLength
  cases body <;> simp only [] <;>
    repeat' first
      | rw [statusCode_sendEtag]
      | split
      | simp [typeSet]

@[simp] theorem getH_mkTx (r : Resp)
    (t : Option (Option SendChunk × Option String)) (f : String) :
    getH { r with transmitted := t } f = getH r f := rfl

@[simp] theorem statusCode_mkTx (r : Resp)
    (t : Option (Option SendChunk × Option String)) :
    ({ r with transmitted := t } : Resp).statusCode = r.statusCode := rfl

@[simp] theorem statusCode_strip204 (r : Resp) :
    (strip204 r).statusCode = r.statusCode := rfl

theorem lc_CT : (lcStr "Content-Type") = "content-type" := by
  decide

theorem lc_CL : (lcStr "Content-Length") = "content-length" :=
  by decide

theorem lc_TE :
    (lcStr "Transfer-Encoding") = "transfer-encoding" := by decide

theorem getH_strip204_CT (r : Resp) : getH (strip204 r) "Content-Type" =
    none := by
  unfold strip204
  rw [getH_removeH_other, getH_removeH_other, getH_removeH_same] <;>
    simp [lc_CT, lc_CL, lc_TE]

theorem getH_strip204_CL (r : Resp) : getH (strip204 r) "Content-Length" =
    none := by
  unfold strip204
  rw [getH_removeH_other, getH_removeH_same] <;>
    simp [lc_CT, lc_CL, lc_TE]

theorem getH_strip204_TE (r : Resp) :
    getH (strip204 r) "Transfer-Encoding" = none := by
  unfold strip204
  rw [getH_removeH_same]
  simp [lc_TE]

theorem getH_strip204_other (r : Resp) (f : String)
    (h1 : (lcStr f) ≠ "content-type") (h2 : (lcStr f) ≠ "content-length")
    (h3 : (lcStr f) ≠ "transfer-encoding") :
    getH (strip204 r) f = getH r f := by
  unfold strip204
  rw [getH_removeH_other, getH_removeH_other, getH_removeH_other] <;>
    simp [lc_CT, lc_CL, lc_TE, h1, h2, h3]

theorem getH_eq_of_headers {a b : Resp} (h : a.headers = b.headers)
    (f : String) : getH a f = getH b f := by
  simp [getH, h]

theorem statusCode_sendFinish (m : String → String) (fresh : Bool)
    (method : String) (r : Resp) (ch : Option SendChunk)
    (enc : Option String) :
    (sendFinish m fresh method r ch enc).statusCode =
      (if fresh then (304 : Int) else r.statusCode) := by
  unfold sendFinish
  cases fresh <;>
    · simp only [Bool.false_eq_true, if_false, if_true]
      split <;> split <;> split <;> simp

/-- The behaviour of the tail of `send`: freshness forces 304, and a
final 204/304 status strips exactly the three body headers, leaves
every other header as it was, and transmits an empty body. -/
theorem sendFinish_spec (m : String → String) (fresh : Bool)
    (method : String) (r : Resp) (ch : Option SendChunk)
    (enc : Option String) :
    (fresh = true → (sendFinish m fresh method r ch enc).statusCode = 304) ∧
    ((sendFinish m fresh method r ch enc).statusCode = 204 ∨
        (sendFinish m fresh method r ch enc).statusCode = 304 →
      getH (sendFinish m fresh method r ch enc) "Content-Type" = none ∧
      getH (sendFinish m fresh method r ch enc) "Content-Length" = none ∧
      getH (sendFinish m fresh method r ch enc) "Transfer-Encoding" = none ∧
      (∀ f : String, (lcStr f) ≠ "content-type" →
        (lcStr f) ≠ "content-length" → (lcStr f) ≠ "transfer-encoding" →
        getH (sendFinish m fresh method r ch enc) f = getH r f) ∧
      txEmpty (sendFinish m fresh method r ch enc) = true) := by
  have hsc := statusCode_sendFinish m fresh method r ch enc
  constructor
  · intro hf
    rw [hsc, hf, if_pos rfl]
  · intro h24
    rw [hsc] at h24
    have hcond :
        (if fresh then ({ r with statusCode := 304 } : Resp)
          else r).statusCode = 204 ∨
        (if fresh then ({ r with statusCode := 304 } : Resp)
          else r).statusCode = 304 := by
      cases fresh <;> simpa using h24
    have hne205 :
        ¬ (strip204 (if fresh then ({ r with statusCode := 304 } : Resp)
          else r)).statusCode = 205 := by
      rcases hcond with h | h <;> rw [statusCode_strip204, h] <;> decide
    simp only [sendFinish]
    rw [if_pos hcond]
    simp only [if_neg hne205]
    split <;>
      exact ⟨(getH_eq_of_headers rfl _).trans (getH_strip204_CT _),
        (getH_eq_of_headers rfl _).trans (getH_strip204_CL _),
        (getH_eq_of_headers rfl _).trans (getH_strip204_TE _),
        fun f h1 h2 h3 =>
          ((getH_eq_of_headers rfl f).trans
              (getH_strip204_other _ f h1 h2 h3)).trans
            (by cases fresh <;> simp),
        by simp [txEmpty]⟩

theorem getH_setStr_same (mimeCT : String → String) (r : Resp)
    (f g s : String) (h : lcStr g = lcStr f) :
    getH (setStr mimeCT r f s) g =
      some (.one (if lcStr f == "content-type" then mimeCT s else s)) :=
  getH_putH_same r f g _ h

theorem getH_setStr_CL (mimeCT : String → String) (r : Resp) (v : String) :
    getH (setStr mimeCT r "Content-Length" v) "Content-Length" =
      some (.one v) := by
  rw [getH_setStr_same mimeCT r _ _ v rfl]
  simp [show ((lcStr "Content-Length") == "content-type") = false from
    by decide]

theorem getH_typeSet_other (mimeCT : String → String) (r : Resp)
    (t g : String) (h : lcStr g ≠ "content-type") :
    getH (typeSet mimeCT r t) g = getH r g := by
  unfold typeSet
  exact getH_setStr_other _ _ _ _ _ (by rw [lc_CT]; exact h)

theorem getH_sendNormalize_other (mimeCT : String → String)
    (body : SendBody) (r : Resp) (g : String)
    (h : lcStr g ≠ "content-type") :
    getH (sendNormalize mimeCT body r).1 g = getH r g := by
  cases body with
  | bstr s =>
      by_cases hct : (getH r "Content-Type").isNone <;>
        simp [sendNormalize, hct, getH_typeSet_other _ _ _ _ h]
  | bbuf b =>
      by_cases hct : (getH r "Content-Type").isNone <;>
        simp [sendNormalize, hct, getH_typeSet_other _ _ _ _ h]
  | bnull => rfl
  | bundef => rfl

theorem getH_sendCharset_other (mimeCT : String → String) (r : Resp)
    (ch : Option SendChunk) (g : String) (h : lcStr g ≠ "content-type") :
    getH (sendCharset mimeCT r ch).1 g = getH r g := by
  unfold sendCharset
  rcases ch with _ | c
  · rfl
  · cases c with
    | cbuf b => rfl
    | cstr s =>
        rcases hct : getH r "Content-Type" with _ | v
        · simp [hct]
        · cases v with
          | one t =>
              simp only [hct]
              exact getH_setStr_other _ _ _ _ _ (by rw [lc_CT]; exact h)
          | many l => simp [hct]

theorem getH_sendEtag_other
    (etagFn : Option (SendChunk → Option String → String)) (gen : Bool)
    (r : Resp) (ch : SendChunk) (enc : Option String) (g : String)
    (h : lcStr g ≠ "etag") :
    getH (sendEtag etagFn gen r ch enc) g = getH r g := by
  unfold sendEtag
  rcases etagFn with _ | f
  · rfl
  · cases gen
    · rfl
    · simp only []
      split
      · rfl
      · exact getH_setStr_other _ _ _ _ _
          (by rw [show lcStr "ETag" = "etag" from by decide]; exact h)

theorem getH_setStr_ETag (mimeCT : String → String) (r : Resp)
    (v : String) : getH (setStr mimeCT r "ETag" v) "ETag" = some (.one v) := by
  rw [getH_setStr_same mimeCT r _ _ v rfl]
  simp [show ((lcStr "ETag") == "content-type") = false from by decide]

/-- The serializer stages before the Content-Length block preserve the
ETag header, so the `generateETag` decision equals the one taken on the
state `send` was called with. -/
theorem genETag_sendCharset_normalize (mimeCT : String → String)
    (etagFn : Option (SendChunk → Option String → String)) (body : SendBody)
    (r : Resp) (ch : Option SendChunk) :
    genETag (sendCharset mimeCT (sendNormalize mimeCT body r).1 ch).1
        etagFn = genETag r etagFn := by
  unfold genETag etagHeaderFalsy
  rw [getH_sendCharset_other _ _ _ _ (by decide),
    getH_sendNormalize_other _ _ _ _ (by decide)]

theorem getH_ETag_sendCharset_normalize (mimeCT : String → String)
    (body : SendBody) (r : Resp) (ch : Option SendChunk) :
    getH (sendCharset mimeCT (sendNormalize mimeCT body r).1 ch).1 "ETag" =
      getH r "ETag" := by
  rw [getH_sendCharset_other _ _ _ _ (by decide),
    getH_sendNormalize_other _ _ _ _ (by decide)]

/-- Closed form of the serializer stage on a buffer body. -/
theorem stage1_bbuf (mimeCT : String → String)
    (etagFn : Option (SendChunk → Option String → String)) (r : Resp)
    (b : List Nat) :
    sendStage1 mimeCT etagFn (.bbuf b) r =
      (sendEtag etagFn
        (genETag (sendCharset mimeCT (sendNormalize mimeCT (.bbuf b) r).1
          (some (.cbuf b))).1 etagFn)
        (setStr mimeCT
          (sendCharset mimeCT (sendNormalize mimeCT (.bbuf b) r).1
            (some (.cbuf b))).1 "Content-Length" (toString b.length))
        (.cbuf b) none,
       some (.cbuf b), none) := rfl

/-- Closed form of the serializer stage on a string body, up to the
Content-Length block. -/
theorem stage1_bstr (mimeCT : String → String)
    (etagFn : Option (SendChunk → Option String → String)) (r : Resp)
    (s : String) :
    sendStage1 mimeCT etagFn (.bstr s) r =
      sendLength mimeCT etagFn
        (sendCharset mimeCT (sendNormalize mimeCT (.bstr s) r).1
          (some (.cstr s))).1 (some (.cstr s)) (some "utf8") := rfl

/-- Closed form of the serializer stage on a null body (an empty
string). -/
theorem stage1_bnull (mimeCT : String → String)
    (etagFn : Option (SendChunk → Option String → String)) (r : Resp) :
    sendStage1 mimeCT etagFn .bnull r =
      sendLength mimeCT etagFn
        (sendCharset mimeCT (sendNormalize mimeCT .bnull r).1
          (some (.cstr ""))).1 (some (.cstr "")) (some "utf8") := rfl

/-- Closed form of the serializer stage on an undefined body: nothing
happens. -/
theorem stage1_bundef (mimeCT : String → String)
    (etagFn : Option (SendChunk → Option String → String)) (r : Resp) :
    sendStage1 mimeCT etagFn .bundef r = (r, none, none) := rfl

/-- The Content-Length block on a string chunk, as an `if` between the
direct-measure branch and the buffering branch. -/
theorem sendLength_cstr (mimeCT : String → String)
    (etagFn : Option (SendChunk → Option String → String)) (r2 : Resp)
    (s : String) (enc : Option String) :
    sendLength mimeCT etagFn r2 (some (.cstr s)) enc =
      (if !genETag r2 etagFn && decide (utf16Len s < 1000) then
        (sendEtag etagFn (genETag r2 etagFn)
          (setStr mimeCT r2 "Content-Length" (toString (utf8ByteLen s)))
          (.cstr s) enc, some (.cstr s), enc)
      else
        (sendEtag etagFn (genETag r2 etagFn)
          (setStr mimeCT r2 "Content-Length"
            (toString (utf8Bytes s).length))
          (.cbuf (utf8Bytes s)) none,
         some (.cbuf (utf8Bytes s)), none)) := rfl

/-!  Claim C1: freshness forces 304; 204/304 carry no body. -/

/-- C1: for every call to `send`, a fresh request forces status 304
regardless of any caller-set status; and whenever the final status is
204 or 304, the Content-Type, Content-Length and Transfer-Encoding
headers are removed, every other header is exactly as the serializer
stage (`sendStage1`) left it, and the transmitted body is empty. -/
theorem send_fresh_and_no_body_statuses (mimeCT : String → String)
    (etagFn : Option (SendChunk → Option String → String)) (fresh : Bool)
    (method : String) (body : SendBody) (r : Resp) :
    (fresh = true →
      (send mimeCT etagFn fresh method body r).statusCode = 304) ∧
    ((send mimeCT etagFn fresh method body r).statusCode = 204 ∨
        (send mimeCT etagFn fresh method body r).statusCode = 304 →
      getH (send mimeCT etagFn fresh method body r) "Content-Type" = none ∧
      getH (send mimeCT etagFn fresh method body r) "Content-Length" =
        none ∧
      getH (send mimeCT etagFn fresh method body r) "Transfer-Encoding" =
        none ∧
      (∀ f : String, (lcStr f) ≠ "content-type" →
        (lcStr f) ≠ "content-length" → (lcStr f) ≠ "transfer-encoding" →
        getH (send mimeCT etagFn fresh method body r) f =
          getH (sendStage1 mimeCT etagFn body r).1 f) ∧
      txEmpty (send mimeCT etagFn fresh method body r) = true) :=
  sendFinish_spec mimeCT fresh method (sendStage1 mimeCT etagFn body r).1
    (sendStage1 mimeCT etagFn body r).2.1
    (sendStage1 mimeCT etagFn body r).2.2

/-- Witness for C1: a fresh GET with a string body ends as a 304 with
the three headers gone, the ETag slot untouched relative to the
serializer stage, and an empty transmitted body. -/
theorem send_fresh_and_no_body_statuses_witness :
    (send (fun t => t) none true "GET" (.bstr "x") {}).statusCode = 304 ∧
    getH (send (fun t => t) none true "GET" (.bstr "x") {}) "Content-Type" =
      none ∧
    getH (send (fun t => t) none true "GET" (.bstr "x") {}) "ETag" =
      getH (sendStage1 (fun t => t) none (.bstr "x") {}).1 "ETag" ∧
    txEmpty (send (fun t => t) none true "GET" (.bstr "x") {}) = true := by
  have h := send_fresh_and_no_body_statuses (fun t => t) none true "GET"
    (.bstr "x") {}
  have h304 := h.1 rfl
  have h2 := h.2 (Or.inr h304)
  exact ⟨h304, h2.1, h2.2.2.2.1 "ETag" (by decide) (by decide) (by decide),
    h2.2.2.2.2⟩

/-!  Claim C2: Content-Length computation and ETag generation. -/

/-- C2: a buffer body sets Content-Length to its byte length directly;
a string body is materialized into a UTF-8 buffer (dropping the
encoding) whenever an ETag will be generated or its length is at least
1000, and otherwise is measured directly without buffering; a null body
(the empty string) sets Content-Length "0"; an undefined body leaves
Content-Length untouched; and when an ETag is generated, the ETag
header is set exactly when the generator returned a non-empty value. -/
theorem send_content_length_etag (mimeCT : String → String)
    (etagFn : Option (SendChunk → Option String → String)) (r : Resp) :
    (∀ b : List Nat,
      getH (sendStage1 mimeCT etagFn (.bbuf b) r).1 "Content-Length" =
        some (.one (toString b.length)) ∧
      (sendStage1 mimeCT etagFn (.bbuf b) r).2.1 = some (.cbuf b)) ∧
    (∀ s : String, genETag r etagFn = true ∨ 1000 ≤ utf16Len s →
      getH (sendStage1 mimeCT etagFn (.bstr s) r).1 "Content-Length" =
        some (.one (toString (utf8Bytes s).length)) ∧
      (sendStage1 mimeCT etagFn (.bstr s) r).2.1 =
        some (.cbuf (utf8Bytes s)) ∧
      (sendStage1 mimeCT etagFn (.bstr s) r).2.2 = none) ∧
    (∀ s : String, genETag r etagFn = false → utf16Len s < 1000 →
      getH (sendStage1 mimeCT etagFn (.bstr s) r).1 "Content-Length" =
        some (.one (toString (utf8ByteLen s))) ∧
      (sendStage1 mimeCT etagFn (.bstr s) r).2.1 = some (.cstr s) ∧
      (sendStage1 mimeCT etagFn (.bstr s) r).2.2 = some "utf8") ∧
    (getH (sendStage1 mimeCT etagFn .bnull r).1 "Content-Length" =
      some (.one "0")) ∧
    (getH (sendStage1 mimeCT etagFn .bundef r).1 "Content-Length" =
      getH r "Content-Length" ∧
      (sendStage1 mimeCT etagFn .bundef r).1.headers = r.headers) ∧
    (∀ g : SendChunk → Option String → String, etagFn = some g →
      genETag r etagFn = true →
      ∀ (body : SendBody) (ch : SendChunk) (enc : Option String),
        (sendStage1 mimeCT etagFn body r).2 = (some ch, enc) →
        (g ch enc ≠ "" →
          getH (sendStage1 mimeCT etagFn body r).1 "ETag" =
            some (.one (g ch enc))) ∧
        (g ch enc = "" →
          getH (sendStage1 mimeCT etagFn body r).1 "ETag" =
            getH r "ETag")) := by
  have hEtagPart :
      ∀ (g : SendChunk → Option String → String), etagFn = some g →
      ∀ (r3 : Resp) (ch : SendChunk) (enc : Option String),
        (g ch enc ≠ "" →
          getH (sendEtag etagFn true r3 ch enc) "ETag" =
            some (.one (g ch enc))) ∧
        (g ch enc = "" →
          getH (sendEtag etagFn true r3 ch enc) "ETag" =
            getH r3 "ETag") := by
    intro g hg r3 ch enc
    subst hg
    constructor
    · intro hne
      simp only [sendEtag]
      rw [if_neg (by simpa using hne)]
      exact getH_setStr_ETag _ _ _
    · intro heq
      simp only [sendEtag]
      rw [if_pos (by simpa using heq)]
  refine ⟨fun b => ?_, fun s hcase => ?_, fun s hgen hlen => ?_, ?_, ?_,
    fun g hg hgen body ch enc hch => ?_⟩
  · rw [stage1_bbuf]
    exact ⟨by rw [getH_sendEtag_other _ _ _ _ _ _ (by decide),
      getH_setStr_CL], rfl⟩
  · rw [stage1_bstr, sendLength_cstr]
    rw [if_neg ?hcnd]
    case hcnd =>
      rw [genETag_sendCharset_normalize]
      rcases hcase with h | h
      · simp [h]
      · simp [Nat.not_lt.mpr h]
    exact ⟨by rw [getH_sendEtag_other _ _ _ _ _ _ (by decide),
      getH_setStr_CL], rfl, rfl⟩
  · rw [stage1_bstr, sendLength_cstr]
    rw [if_pos ?hcnd2]
    case hcnd2 =>
      rw [genETag_sendCharset_normalize, hgen]
      simp [hlen]
    exact ⟨by rw [getH_sendEtag_other _ _ _ _ _ _ (by decide),
      getH_setStr_CL], rfl, rfl⟩
  · rw [stage1_bnull, sendLength_cstr]
    by_cases hc : (!genETag (sendCharset mimeCT
        (sendNormalize mimeCT .bnull r).1 (some (.cstr ""))).1 etagFn &&
        decide (utf16Len "" < 1000)) = true
    · rw [if_pos hc, getH_sendEtag_other _ _ _ _ _ _ (by decide),
        getH_setStr_CL]
      decide
    · rw [if_neg hc, getH_sendEtag_other _ _ _ _ _ _ (by decide),
        getH_setStr_CL]
      decide
  · exact ⟨rfl, rfl⟩
  · cases body with
    | bundef =>
        rw [stage1_bundef] at hch
        simp at hch
    | bbuf b =>
        rw [stage1_bbuf] at hch ⊢
        obtain ⟨hc, he⟩ : SendChunk.cbuf b = ch ∧ none = enc := by
          simpa using hch
        subst hc
        subst he
        have hgen2 : genETag (sendCharset mimeCT
            (sendNormalize mimeCT (.bbuf b) r).1 (some (.cbuf b))).1 etagFn =
            true := by rw [genETag_sendCharset_normalize]; exact hgen
        rw [hgen2]
        refine ⟨fun hne => (hEtagPart g hg _ _ _).1 hne,
          fun heq => ((hEtagPart g hg _ _ _).2 heq).trans ?_⟩
        rw [getH_setStr_other _ _ _ _ _ (by decide),
          getH_ETag_sendCharset_normalize]
    | bstr s =>
        rw [stage1_bstr, sendLength_cstr] at hch ⊢
        have hgen2 : genETag (sendCharset mimeCT
            (sendNormalize mimeCT (.bstr s) r).1 (some (.cstr s))).1 etagFn =
            true := by rw [genETag_sendCharset_normalize]; exact hgen
        rw [hgen2] at hch ⊢
        simp only [Bool.not_true, Bool.false_and] at hch ⊢
        rw [if_neg (by simp)] at hch
        rw [if_neg (by simp)]
        obtain ⟨hc, he⟩ : SendChunk.cbuf (utf8Bytes s) = ch ∧ none = enc := by
          simpa using hch
        subst hc
        subst he
        refine ⟨fun hne => (hEtagPart g hg _ _ _).1 hne,
          fun heq => ((hEtagPart g hg _ _ _).2 heq).trans ?_⟩
        rw [getH_setStr_other _ _ _ _ _ (by decide),
          getH_ETag_sendCharset_normalize]
    | bnull =>
        rw [stage1_bnull, sendLength_cstr] at hch ⊢
        have hgen2 : genETag (sendCharset mimeCT
            (sendNormalize mimeCT .bnull r).1 (some (.cstr ""))).1 etagFn =
            true := by rw [genETag_sendCharset_normalize]; exact hgen
        rw [hgen2] at hch ⊢
        simp only [Bool.not_true, Bool.false_and] at hch ⊢
        rw [if_neg (by simp)] at hch
        rw [if_neg (by simp)]
        obtain ⟨hc, he⟩ : SendChunk.cbuf (utf8Bytes "") = ch ∧ none = enc := by
          simpa using hch
        subst hc
        subst he
        refine ⟨fun hne => (hEtagPart g hg _ _ _).1 hne,
          fun heq => ((hEtagPart g hg _ _ _).2 heq).trans ?_⟩
        rw [getH_setStr_other _ _ _ _ _ (by decide),
          getH_ETag_sendCharset_normalize]

/-- Witness for C2: the short string `"hi"` with no ETag generator is
measured directly (Content-Length "2", unbuffered chunk), and with a
generator returning `"W"` the body is buffered and the ETag header
becomes `"W"`. -/
theorem send_content_length_etag_witness :
    genETag {} none = false ∧ utf16Len "hi" < 1000 ∧
    getH (sendStage1 (fun t => t) none (.bstr "hi") {}).1 "Content-Length" =
      some (.one "2") ∧
    (sendStage1 (fun t => t) none (.bstr "hi") {}).2.1 =
      some (.cstr "hi") ∧
    getH (sendStage1 (fun t => t) (some (fun _ _ => "W")) (.bstr "hi")
      {}).1 "ETag" = some (.one "W") := by
  have h := (send_content_length_etag (fun t => t) none {}).2.2.1 "hi"
    (by decide) (by decide)
  have h2 := ((send_content_length_etag (fun t => t)
      (some (fun _ _ => "W")) {}).2.2.2.2.2 (fun _ _ => "W") rfl (by decide)
      (.bstr "hi") (.cbuf (utf8Bytes "hi")) none (by decide)).1
    (by decide)
  exact ⟨by decide, by decide, h.1.trans (by decide), h.2.1,
    h2.trans (by decide)⟩

/-!  Claim C4: `status` validation. -/

/-- C4: for every integer `c` with `100 <= c <= 999`, `status(c)`
succeeds, stores `c` and returns the context for chaining; every
integer outside the range fails with the RangeKind error; every
non-integer argument (strings, floats, NaN, infinities, booleans,
objects, arrays, undefined, null) fails with the TypeKind
(InvalidArgument) error.  Errors return no modified context, so the
stored status code is unchanged. -/
theorem status_validation (r : Resp) :
    (∀ n : Int, 100 ≤ n → n ≤ 999 →
      status r (.int n) = .ok { r with statusCode := n }) ∧
    (∀ n : Int, n < 100 ∨ 999 < n → status r (.int n) = .error .rangeKind) ∧
    (∀ v : JsVal, (∀ n : Int, v ≠ .int n) →
      status r v = .error .typeKind) := by
  refine ⟨fun n h1 h2 => ?_, fun n h => ?_, fun v hv => ?_⟩
  · have hc : ¬(n < 100 ∨ n > 999) := by omega
    simp [status, hc]
  · have hc : n < 100 ∨ n > 999 := by omega
    simp [status, hc]
  · cases v <;> first
      | rfl
      | exact absurd rfl (hv _)

/-- Witness for C4 at the concrete codes 201, 99 and the string
`"200"`. -/
theorem status_validation_witness :
    status {} (.int 201) = .ok { statusCode := 201 } ∧
    status {} (.int 99) = .error .rangeKind ∧
    status {} (.str "200") = .error .typeKind :=
  ⟨(status_validation {}).1 201 (by decide) (by decide),
   (status_validation {}).2.1 99 (Or.inl (by decide)),
   (status_validation {}).2.2 (.str "200") (fun n h => JsVal.noConfusion h)⟩

/-!  Claim C3: the delivery-session callback fires at most once. -/

/-- The invariant of the session state machine: before the `done` flag
is set the callback has never fired, and it never fires twice. -/
def sfInv (s : SfState) : Prop :=
  (s.done = false → s.cbCount = 0) ∧ s.cbCount ≤ 1

theorem sfFire_inv (s : SfState) (h : sfInv s) : sfInv (sfFire s) := by
  obtain ⟨h1, h2⟩ := h
  unfold sfFire
  by_cases hd : s.done
  · simp [hd]
    exact ⟨h1, h2⟩
  · simp [hd]
    refine ⟨by simp, ?_⟩
    rw [h1 (by simpa using hd)]

theorem sfStep_inv (s : SfState) (e : SfEvent) (h : sfInv s) :
    sfInv (sfStep s e) := by
  obtain ⟨h1, h2⟩ := h
  cases e with
  | evDirectory => exact sfFire_inv s ⟨h1, h2⟩
  | evEnd => exact sfFire_inv s ⟨h1, h2⟩
  | evError => exact sfFire_inv s ⟨h1, h2⟩
  | evFile => exact ⟨h1, h2⟩
  | evStream => exact ⟨h1, h2⟩
  | evFinish err =>
      cases err with
      | none => exact ⟨h1, h2⟩
      | some b => exact sfFire_inv s ⟨h1, h2⟩
  | evDeferred =>
      simp only [sfStep]
      split
      · exact sfFire_inv s ⟨h1, h2⟩
      · split
        · rename_i hg hd
          refine ⟨by simp, ?_⟩
          simp only []
          rw [h1 (by simpa using hd)]
        · exact ⟨h1, h2⟩

theorem sfRun_inv (es : List SfEvent) :
    ∀ s : SfState, sfInv s → sfInv (es.foldl sfStep s) := by
  induction es with
  | nil => exact fun s h => h
  | cons e t ih => exact fun s h => ih (sfStep s e) (sfStep_inv s e h)

/-- C3: for every order and multiplicity of arrival of the streamer
events and the connection-finish signal (including the deferred check
an error-free finish schedules), the terminal callback of a delivery
session is invoked at most once. -/
theorem sendfile_callback_at_most_once (es : List SfEvent) :
    (sfRun es).cbCount ≤ 1 :=
  (sfRun_inv es {} ⟨fun _ => rfl, by decide⟩).2

/-!  Claim C5: content negotiation. -/

theorem varyFields_setStr_CT (mimeCT : String → String) (r : Resp)
    (s : String) :
    varyFields (setStr mimeCT r "Content-Type" s) = varyFields r := by
  unfold varyFields
  rw [getH_setStr_other _ _ _ _ _ (by decide)]

theorem varyHas_varyAdd (r : Resp) (f : String) :
    varyHas (varyAdd r f) f = true := by
  unfold varyAdd
  by_cases hmem :
      (((varyFields r).map (fun t => lcStr t)).contains (lcStr f)) = true
  · rw [if_pos hmem]
    exact hmem
  · rw [if_neg hmem]
    unfold varyHas varyFields
    rw [getH_putH_same _ _ _ _ rfl]
    simp

/-- C5: `format` always adds Accept to the Vary header; a matched
non-default key sets Content-Type to that key's canonical value and
invokes that handler; otherwise the `default` handler is invoked when
present; otherwise a 406 error carrying the normalized offered types is
handed to the next-handler channel (the function returns normally
rather than throwing). -/
theorem format_negotiation (mimeCT normType : String → String)
    (accepts : List String → Option String) (allKeys : List String)
    (r : Resp) :
    (varyHas (format mimeCT normType accepts allKeys r).1 "Accept" =
      true) ∧
    (∀ k : String,
      formatKey accepts (allKeys.filter (fun v => v != "default")) =
        some k →
      (format mimeCT normType accepts allKeys r).2 = .handler k ∧
      getH (format mimeCT normType accepts allKeys r).1 "Content-Type" =
        some (.one (mimeCT (normType k)))) ∧
    (formatKey accepts (allKeys.filter (fun v => v != "default")) = none →
      allKeys.contains "default" = true →
      (format mimeCT normType accepts allKeys r).2 = .defaultHandler) ∧
    (formatKey accepts (allKeys.filter (fun v => v != "default")) = none →
      allKeys.contains "default" = false →
      (format mimeCT normType accepts allKeys r).2 =
        .nextError 406
          ((allKeys.filter (fun v => v != "default")).map normType)) := by
  refine ⟨?_, fun k hk => ?_, fun hk hd => ?_, fun hk hd => ?_⟩
  · unfold format
    rcases hk : formatKey accepts (allKeys.filter (fun v => v != "default"))
      with _ | k
    · simp only [hk]
      split <;> exact varyHas_varyAdd r "Accept"
    · simp only [hk]
      unfold varyHas
      rw [varyFields_setStr_CT]
      exact varyHas_varyAdd r "Accept"
  · unfold format
    simp only [hk]
    exact ⟨by trivial, by rw [getH_setStr_same _ _ _ _ _ rfl]; simp [lc_CT]⟩
  · unfold format
    simp only [hk, hd]
    simp
  · unfold format
    simp only [hk]
    rw [if_neg (by rw [hd]; simp)]

/-- Witness for C5: a table offering `json` with a `default` entry,
against a request accepting `json`, runs the `json` handler and sets
the canonical Content-Type; a table offering only `json` against a
request accepting nothing yields the 406 next-error carrying
`["json"]`; Accept is varied in both cases. -/
theorem format_negotiation_witness :
    varyHas (format (fun t => t) (fun t => t) (fun _ => some "json")
      ["json", "default"] {}).1 "Accept" = true ∧
    (format (fun t => t) (fun t => t) (fun _ => some "json")
      ["json", "default"] {}).2 = .handler "json" ∧
    getH (format (fun t => t) (fun t => t) (fun _ => some "json")
      ["json", "default"] {}).1 "Content-Type" = some (.one "json") ∧
    (format (fun t => t) (fun t => t) (fun _ => none) ["json"] {}).2 =
      .nextError 406 ["json"] := by
  have h1 := format_negotiation (fun t => t) (fun t => t)
    (fun _ => some "json") ["json", "default"] {}
  have h2 := format_negotiation (fun t => t) (fun t => t) (fun _ => none)
    ["json"] {}
  have hk1 : formatKey (fun _ : List String => some "json")
      ((["json", "default"]).filter (fun v => v != "default")) =
        some "json" := rfl
  have hmatch := h1.2.1 "json" hk1
  exact ⟨h1.1, hmatch.1, hmatch.2,
    (h2.2.2.2 rfl (by decide)).trans (by decide)⟩

/-!  Claims C7 and C8: JSONP with and without a callback name. -/

/-- C7: when the request's query supplies a non-empty callback name
(first element if an array was supplied), the characters outside
`[A-Za-z0-9_$.\x5b\x5d]` are stripped from the name, the body handed
to `send` becomes exactly the `/**/ typeof <cb>...` wrapper around the
line-separator-escaped serialized JSON (empty when the serialization
was undefined), Content-Type is set to `text/javascript` (through the
mime canonicalizer, as every Content-Type set is) and
X-Content-Type-Options is set to `nosniff`. -/
theorem jsonp_with_callback (mimeCT : String → String)
    (body : Option String) (q : Option QVal) (r : Resp) :
    ∀ s : String, firstCb q = some s → s ≠ "" →
      (jsonpPre mimeCT body q r).2 =
        some (jsonpWrap (stripCb s) (jsonpBody body)) ∧
      getH (jsonpPre mimeCT body q r).1 "Content-Type" =
        some (.one (mimeCT "text/javascript")) ∧
      getH (jsonpPre mimeCT body q r).1 "X-Content-Type-Options" =
        some (.one "nosniff") := by
  intro s hs hne
  have hs2 : (s == "") = false := by simpa using hne
  unfold jsonpPre
  simp only [hs, hs2, Bool.false_eq_true, if_false]
  refine ⟨by trivial, ?_, ?_⟩
  · rw [getH_setStr_same _ _ _ _ _ rfl]
    simp [lc_CT]
  · rw [getH_setStr_other _ _ _ _ _ (by decide),
      getH_setStr_same _ _ _ _ _ rfl]
    simp [show ((lcStr "X-Content-Type-Options") == "content-type") = false
      from by decide]

/-- Witness for C7: the callback name `cb;!` has its semicolon and
exclamation mark stripped, leaving `cb`, over the serialized body
`[1]`. -/
theorem jsonp_with_callback_witness :
    (jsonpPre (fun t => t) (some "[1]") (some (.qstr "cb;!")) {}).2 =
      some ("/**/ typeof cb===" ++ sq ++ "function" ++ sq ++
        "&&cb([1]);") ∧
    getH (jsonpPre (fun t => t) (some "[1]") (some (.qstr "cb;!")) {}).1
      "Content-Type" = some (.one "text/javascript") ∧
    getH (jsonpPre (fun t => t) (some "[1]") (some (.qstr "cb;!")) {}).1
      "X-Content-Type-Options" = some (.one "nosniff") := by
  have h := jsonp_with_callback (fun t => t) (some "[1]")
    (some (.qstr "cb;!")) {} "cb;!" rfl (by decide)
  exact ⟨h.1.trans (by decide), h.2.1, h.2.2⟩

/-- C8 (amended): when the request's query supplies no callback name,
the serialized body is handed to `send` unmodified; and when no
Content-Type header is already set, Content-Type is set to
`application/json` and X-Content-Type-Options to `nosniff` — when a
Content-Type is already present the response state is left entirely
unchanged. -/
theorem jsonp_no_callback (mimeCT : String → String) (body : Option String)
    (q : Option QVal) (r : Resp) (hq : firstCb q = none) :
    (jsonpPre mimeCT body q r).2 = body ∧
    (getH r "Content-Type" = none →
      getH (jsonpPre mimeCT body q r).1 "Content-Type" =
        some (.one (mimeCT "application/json")) ∧
      getH (jsonpPre mimeCT body q r).1 "X-Content-Type-Options" =
        some (.one "nosniff")) ∧
    (getH r "Content-Type" ≠ none → (jsonpPre mimeCT body q r).1 = r) := by
  unfold jsonpPre
  rw [hq]
  refine ⟨rfl, fun hct => ?_, fun hct => ?_⟩
  · rw [if_pos (by simp [hct])]
    constructor
    · rw [getH_setStr_same _ _ _ _ _ rfl]
      simp [lc_CT]
    · rw [getH_setStr_other _ _ _ _ _ (by decide),
        getH_setStr_same _ _ _ _ _ rfl]
      simp [show ((lcStr "X-Content-Type-Options") == "content-type") =
        false from by decide]
  · rw [if_neg (by simpa using hct)]

/-- Witness for the amended C8: with no prior Content-Type, a
callback-less `jsonp` of `[1]` sets `application/json` plus `nosniff`
and passes the body through. -/
theorem jsonp_no_callback_witness :
    (jsonpPre (fun t => t) (some "[1]") none {}).2 = some "[1]" ∧
    getH (jsonpPre (fun t => t) (some "[1]") none {}).1 "Content-Type" =
      some (.one "application/json") ∧
    getH (jsonpPre (fun t => t) (some "[1]") none {}).1
      "X-Content-Type-Options" = some (.one "nosniff") := by
  have h := jsonp_no_callback (fun t => t) (some "[1]") none {} rfl
  have h2 := h.2.1 rfl
  exact ⟨h.1, h2.1, h2.2⟩

/-- Counterexample to C8 as stated: when the caller has already set a
Content-Type (here `text/plain`), a callback-less `jsonp` sets neither
`application/json` nor the `nosniff` header — the header block is
guarded by the absence of a Content-Type. -/
theorem jsonp_no_callback_cex :
    getH (jsonpPre (fun t => t) (some "[1]") none
        (setStr (fun t => t) {} "Content-Type" "text/plain")).1
      "X-Content-Type-Options" = none ∧
    getH (jsonpPre (fun t => t) (some "[1]") none
        (setStr (fun t => t) {} "Content-Type" "text/plain")).1
      "Content-Type" = some (.one "text/plain") := by
  exact ⟨by decide, by decide⟩

/-!  Claim C6: the default `sendFile` terminal policy. -/

/-- C6: with no explicit callback, an EISDIR error passes control to
the next handler with no error argument; an ECONNABORTED error or an
error whose syscall is `write` is suppressed; every other error is
forwarded to the next-in-chain error path. -/
theorem sendFile_default_policy :
    (∀ e : SfErrInfo, e.code = some "EISDIR" →
      sendFileDefaultDone (some e) = .nextNoArg) ∧
    (∀ e : SfErrInfo, e.code ≠ some "EISDIR" →
      e.code = some "ECONNABORTED" ∨ e.syscall = some "write" →
      sendFileDefaultDone (some e) = .noCall) ∧
    (∀ e : SfErrInfo, e.code ≠ some "EISDIR" →
      e.code ≠ some "ECONNABORTED" → e.syscall ≠ some "write" →
      sendFileDefaultDone (some e) = .nextErr e) := by
  refine ⟨fun e h => ?_, fun e h1 h2 => ?_, fun e h1 h2 h3 => ?_⟩
  · simp [sendFileDefaultDone, h]
  · rcases h2 with h2 | h2 <;> simp [sendFileDefaultDone, h1, h2]
  · simp [sendFileDefaultDone, h1, h2, h3]

/-- Witness for C6 at three concrete errors: a directory error, a
write-syscall error, and an unrelated ENOENT error. -/
theorem sendFile_default_policy_witness :
    sendFileDefaultDone (some { code := some "EISDIR" }) = .nextNoArg ∧
    sendFileDefaultDone (some { syscall := some "write" }) = .noCall ∧
    sendFileDefaultDone (some { code := some "ENOENT" }) =
      .nextErr { code := some "ENOENT" } :=
  ⟨sendFile_default_policy.1 _ (by decide),
   sendFile_default_policy.2.1 _ (by decide) (Or.inr (by decide)),
   sendFile_default_policy.2.2 _ (by decide) (by decide) (by decide)⟩

/-!  Claim C9: `clearCookie`. -/

/-- C9 (amended): for every name and every options mapping that does
not request signing, `clearCookie` appends to `Set-Cookie` the
serialization of an entry for the name with the empty value, the path
defaulting to `/`, the expiry timestamp 1 (one millisecond after the
epoch — in the past), and no maxAge attribute even when the caller
supplied one. -/
theorem clearCookie_spec (sign : String → String → String)
    (serializeCk : CkEntry → String) (now : Int) (secret : Option String)
    (name : String) (options : CookieOpts) (r : Resp)
    (hsig : options.signed = false) :
    clearCookie sign serializeCk now secret name options r =
      .ok (appendH (fun s => s) r "Set-Cookie"
          (serializeCk ⟨name, "",
            ⟨some (options.path.getD "/"), some 1, none, false⟩⟩),
        ⟨name, "", ⟨some (options.path.getD "/"), some 1, none,
          false⟩⟩) := by
  unfold clearCookie cookie
  rw [hsig]
  rfl

/-- Witness for the amended C9: clearing `sid` with a caller-supplied
`maxAge` still produces the empty value, root path, epoch-adjacent
expiry and no maxAge. -/
theorem clearCookie_spec_witness :
    clearCookie (fun v _ => v) (fun e => e.name ++ "=" ++ e.value) 0 none
        "sid" { maxAge := some 900 } {} =
      .ok (appendH (fun s => s) {} "Set-Cookie" "sid=",
        ⟨"sid", "", ⟨some "/", some 1, none, false⟩⟩) := by
  rw [clearCookie_spec (fun v _ => v) (fun e => e.name ++ "=" ++ e.value) 0
    none "sid" { maxAge := some 900 } {} rfl]
  rfl

/-- Counterexample to C9 as stated: with an options mapping that
requests signing (and a secret configured), the issued `Set-Cookie`
entry's value is the signed `s:`-prefixed string, not the empty
value. -/
theorem clearCookie_signed_cex :
    (clearCookie (fun _ _ => "SIG") (fun e => e.name ++ "=" ++ e.value) 0
        (some "k") "sid" { signed := true } {}).map
      (fun p => p.2.value) = .ok "s:SIG" ∧ "s:SIG" ≠ "" :=
  ⟨rfl, by decide⟩

/-!  Claim C10: `sendStatus`. -/

/-- C10: `sendStatus(c)` validates the code exactly as `status` does;
on success it stores `c`, sets Content-Type to the canonicalization of
the `txt` token (text/plain), and delegates to `send` with the standard
reason phrase of `c` from the external message table as the body — or
the decimal string of `c` when no phrase exists. -/
theorem sendStatus_spec (mimeCT : String → String)
    (etagFn : Option (SendChunk → Option String → String))
    (statusMessage : Int → Option String) (fresh : Bool) (method : String)
    (r : Resp) :
    (∀ c : Int, 100 ≤ c → c ≤ 999 →
      sendStatus mimeCT etagFn statusMessage fresh method (.int c) r =
        .ok (send mimeCT etagFn fresh method
          (.bstr ((statusMessage c).getD (toString c)))
          (typeSet mimeCT { r with statusCode := c } "txt")) ∧
      (typeSet mimeCT { r with statusCode := c } "txt").statusCode = c ∧
      getH (typeSet mimeCT { r with statusCode := c } "txt")
          "Content-Type" = some (.one (mimeCT (mimeCT "txt")))) ∧
    (∀ c : Int, c < 100 ∨ 999 < c →
      sendStatus mimeCT etagFn statusMessage fresh method (.int c) r =
        .error .rangeKind) ∧
    (∀ v : JsVal, (∀ n : Int, v ≠ .int n) →
      sendStatus mimeCT etagFn statusMessage fresh method v r =
        .error .typeKind) := by
  refine ⟨fun c h1 h2 => ?_, fun c h => ?_, fun v hv => ?_⟩
  · have hs := (status_validation r).1 c h1 h2
    refine ⟨?_, rfl, ?_⟩
    · unfold sendStatus
      rw [hs]
      rfl
    · unfold typeSet
      rw [getH_setStr_same _ _ _ _ _ rfl]
      simp [lc_CT, show ("txt".data.contains '/') = false from by decide]
  · have hs := (status_validation r).2.1 c h
    unfold sendStatus
    rw [hs]
    rfl
  · have hs := (status_validation r).2.2 v hv
    unfold sendStatus
    rw [hs]
    rfl

/-- Witness for C10: `sendStatus(404)` over a message table carrying
`Not Found`, and the failing codes 99 and `"200"`. -/
theorem sendStatus_spec_witness :
    sendStatus (fun t => t) none
        (fun c => if c = 404 then some "Not Found" else none) false "GET"
        (.int 404) {} =
      .ok (send (fun t => t) none false "GET" (.bstr "Not Found")
        (typeSet (fun t => t) { statusCode := 404 } "txt")) ∧
    (typeSet (fun t => t) ({ statusCode := 404 } : Resp)
      "txt").statusCode = 404 ∧
    getH (typeSet (fun t => t) ({ statusCode := 404 } : Resp) "txt")
      "Content-Type" = some (.one "txt") ∧
    sendStatus (fun t => t) none
        (fun c => if c = 404 then some "Not Found" else none) false "GET"
        (.int 99) {} = .error .rangeKind := by
  have h := (sendStatus_spec (fun t => t) none
    (fun c => if c = 404 then some "Not Found" else none) false "GET"
    {}).1 404 (by decide) (by decide)
  have h99 := (sendStatus_spec (fun t => t) none
    (fun c => if c = 404 then some "Not Found" else none) false "GET"
    {}).2.1 99 (Or.inl (by decide))
  exact ⟨h.1.trans (by rfl), h.2.1, h.2.2, h99⟩

end Express
